import Mathlib

/-!
Shallow embedding of `src/app/omr_processor.py` (`OMRProcessor.process_omr_sheet`).

The OpenCV front end (decoding, adaptive thresholding, contour extraction) is
represented by its observable output: an optional list of contours, where
`none` stands for `cv2.imdecode` returning `None`, and each contour carries the
data the Python code reads from it — the bounding rectangle returned by
`cv2.boundingRect`, the filled area returned by `cv2.contourArea`, and the
masked ink count `cv2.countNonZero(thresh ∧ mask)` that the mark-evaluation
loop computes for it.  Everything downstream of the OpenCV calls — the
candidate filter, the two-level stable sorts, the row/column grouping, the
per-question argmax, the answer-key lookup and the percentage — is translated
directly from the source.

Python's binary64 floating point shows up in two places: the aspect-ratio test
`0.5 <= w / float(h) <= 1.5` and the final `(correct / total_questions) * 100`.
The aspect ratio is modelled by the exact rational `w / h`: for bounding boxes
with `h < 2^51` (far beyond any decodable image) the rounded float quotient and
the exact quotient fall on the same side of the exactly representable bounds
`0.5` and `1.5`, so the comparisons agree.  The percentage is modelled exactly,
by `roundDyadic`, an implementation of IEEE-754 round-to-nearest, ties-to-even
for positive rationals below `2^53` (no overflow or subnormals occur in this
range), matching CPython's float division and multiplication bit for bit.
-/

namespace OMR

/-- Observable data of one contour: bounding rectangle `(x, y, w, h)` from
`cv2.boundingRect`, filled area from `cv2.contourArea`, and the ink count
`cv2.countNonZero(cv2.bitwise_and(thresh, thresh, mask))` measured inside the
contour by the scoring loop.  `cv2.boundingRect` always returns `w, h ≥ 1`. -/
structure Contour where
  x : Nat
  y : Nat
  w : Nat
  h : Nat
  area : ℚ
  fill : Nat
deriving DecidableEq

/-- Candidate filter from the contour loop of `process_omr_sheet`
(src/app/omr_processor.py lines 27-35): keep a contour when
`w >= 10 and h >= 10 and 0.5 <= w / float(h) <= 1.5` and
`cv2.contourArea(c) > 50`.  The aspect ratio is the exact rational `w / h`
(`mkRat` is used instead of rational division so the definition evaluates
in the kernel; its value is `(w : ℚ) / h`). -/
def keepB (c : Contour) : Bool :=
  decide (10 ≤ c.w) && decide (10 ≤ c.h) &&
    decide (mkRat 1 2 ≤ mkRat c.w c.h) && decide (mkRat c.w c.h ≤ mkRat 3 2) &&
    decide ((50 : ℚ) < c.area)

/-- Insert into a sorted list, placing the new element before every element
with an equal key; `sortByKey` below is therefore a stable sort, like the
`sorted` call inside `imutils.contours.sort_contours`. -/
def insertByKey (key : Contour → Nat) (a : Contour) : List Contour → List Contour
  | [] => [a]
  | b :: l => if key b < key a then b :: insertByKey key a l else a :: b :: l

/-- Stable insertion sort by a numeric key.  Python's `sorted` (Timsort) is
stable, and any two stable sorts by the same key agree, so this models
`imutils.contours.sort_contours` exactly. -/
def sortByKey (key : Contour → Nat) : List Contour → List Contour
  | [] => []
  | a :: l => insertByKey key a (sortByKey key l)

/-- The `method="top-to-bottom"` sort: stable sort by the bounding-box `y`. -/
def sortTB : List Contour → List Contour := sortByKey (fun c => c.y)

/-- The default left-to-right sort: stable sort by the bounding-box `x`. -/
def sortLR : List Contour → List Contour := sortByKey (fun c => c.x)

/-- Fuel-driven floor of the base-2 logarithm (`lg2 fuel n = ⌊log₂ n⌋` for
`0 < n < 2 ^ fuel`); structural recursion so that it evaluates in the kernel. -/
def lg2 : Nat → Nat → Nat
  | 0, _ => 0
  | fuel + 1, n => if n ≤ 1 then 0 else 1 + lg2 fuel (n / 2)

/-- IEEE-754 binary64 rounding (round to nearest, ties to even) of the
rational `a / b`, for `0 < a / b < 2 ^ 53` (the only values the scoring code
produces; `a / b ≥ 2 ^ (-60)` is assumed when locating the leading bit).
The significand is scaled so that `2 ^ 52 ≤ (a / b) · 2 ^ k < 2 ^ 53`,
rounded to an integer with ties broken to even, and the result is the dyadic
rational `n' / 2 ^ k`.  This is exactly CPython's float semantics for the
division and multiplication in `(correct / total_questions) * 100`. -/
def roundDyadic (a b : Nat) : ℚ :=
  if a = 0 ∨ b = 0 then 0
  else
    let L : Nat := lg2 128 ((a * 2 ^ 60) / b)
    let k : Nat := 112 - L
    let s : Nat := a * 2 ^ k
    let n : Nat := s / b
    let r : Nat := s % b
    let n' : Nat :=
      if b < 2 * r then n + 1
      else if 2 * r < b then n
      else if n % 2 = 0 then n else n + 1
    mkRat n' (2 ^ k)

/-- The stored percentage: `score = (correct / total_questions) * 100` with
`total_questions = 100` (src/app/omr_processor.py line 74), in binary64
arithmetic: first the float division `correct / 100`, then the float
multiplication of that dyadic value by `100`. -/
def pct (c : Nat) : ℚ :=
  let q := roundDyadic c 100
  roundDyadic (q.num.toNat * 100) q.den

/-- A Python dictionary key: the answer key supplied by the caller may use
`int` keys or `str` keys; `dict.get` compares them with Python equality,
under which `"1" == 1` is `False`. -/
inductive PyKey where
  | pint (n : ℤ)
  | pstr (s : String)
deriving DecidableEq

/-- An answer key: association list standing for the Python dict
(`answer_key: dict`), values being the stored correct option index. -/
abbrev AnswerKey := List (PyKey × ℤ)

/-- Whether a dictionary key is a Python `int`. -/
def isIntKey : PyKey → Bool
  | .pint _ => true
  | .pstr _ => false

/-- The scoring lookup `answer_key.get(str(question_num))`
(src/app/omr_processor.py line 70): the question number is converted to its
decimal string before indexing. -/
def keyGet (key : AnswerKey) (q : Nat) : Option ℤ :=
  List.lookup (PyKey.pstr (toString q)) key

/-- The inner argmax loop (src/app/omr_processor.py lines 63-69):
`bubbled = None`, then for each option `j` in order,
`if bubbled is None or total > bubbled[0]: bubbled = (total, j)`.
The accumulator and the running index are explicit. -/
def bubbledAux : List Contour → Nat → Option (Nat × Nat) → Option (Nat × Nat)
  | [], _, b => b
  | c :: rest, j, b =>
    let b' := match b with
      | none => some (c.fill, j)
      | some (t, k) => if t < c.fill then some (c.fill, j) else some (t, k)
    bubbledAux rest (j + 1) b'

/-- The value of `bubbled` after the option loop for one question. -/
def bubbled (cs : List Contour) : Option (Nat × Nat) := bubbledAux cs 0 none

/-- One question's contribution to `correct`
(src/app/omr_processor.py lines 70-72): `1` when
`correct_answer_idx is not None and bubbled[1] == correct_answer_idx`,
else `0`.  Returns `none` when the option slice was empty, in which case
Python would raise (`bubbled[1]` with `bubbled = None`) into the generic
`except` handler; this cannot happen once 400 candidates are present. -/
def contribution (key : AnswerKey) (qnum : Nat) (cnts : List Contour) : Option Nat :=
  match bubbled cnts with
  | none => none
  | some (_, j) =>
    some (match keyGet key qnum with
      | some v => if (j : ℤ) = v then 1 else 0
      | none => 0)

/-- Number of physical rows the loop consumes:
`enumerate(np.arange(0, len, 20))` truncated by `if q_row >= 20: break`
(src/app/omr_processor.py lines 48-49), i.e. `min 20 ⌈len / 20⌉`. -/
def numRows (len : Nat) : Nat := min 20 ((len + 19) / 20)

/-- The resolved grid: for each processed row `r`, the slice of 20 candidates
is re-sorted left-to-right, and for each of the 5 column blocks the question
number `col * 20 + q_row + 1` is paired with its 4-candidate option slice
`row_contours[col * 4 : (col + 1) * 4]` (src/app/omr_processor.py lines
48-59), in the source's iteration order. -/
def cells (sorted : List Contour) : List (Nat × List Contour) :=
  (List.range (numRows sorted.length)).flatMap (fun r =>
    let row := sortLR ((sorted.drop (20 * r)).take 20)
    (List.range 5).map (fun col => (col * 20 + r + 1, (row.drop (col * 4)).take 4)))

/-- The accumulated `correct` counter over all processed cells, in iteration
order; `none` if any option slice was empty (Python exception). -/
def countCorrect (key : AnswerKey) (sorted : List Contour) : Option Nat :=
  (cells sorted).foldlM (fun acc qc => do
    let r ← contribution key qc.1 qc.2
    pure (acc + r)) 0

/-- Error string returned when `cv2.imdecode` yields `None`
(src/app/omr_processor.py line 15). -/
def decodeErrorMsg : String := "Failed to decode image."

/-- Error string returned when fewer than 400 candidates survive the filter
(src/app/omr_processor.py lines 37-38); it embeds the surviving count. -/
def bubbleFailMsg (n : Nat) : String :=
  "Bubble detection failed (found " ++ toString n ++
    "). The sample images are not compatible with this CV approach."

/-- Error string of the blanket `except Exception` handler
(src/app/omr_processor.py lines 76-77). -/
def criticalErrorMsg : String := "A critical error occurred during image processing."

/-- The result dictionary: either `{'error': msg}` or
`{'total_questions': …, 'correct': …, 'percentage': …, 'error': None}`. -/
inductive PyResult where
  | err (msg : String)
  | score (total_questions : Nat) (correct : Nat) (percentage : ℚ)
deriving DecidableEq

/-- Translation of `OMRProcessor.process_omr_sheet`
(src/app/omr_processor.py lines 11-77).  The one reachable internal
exception on a decodable image is the `ZeroDivisionError` of
`ar = w / float(h)` when some contour has `h = 0` (never produced by
`cv2.boundingRect`, but kept for faithfulness): it is checked first because
the Python loop computes `ar` for every contour before filtering, and any
such exception lands in the generic handler. -/
def process_omr_sheet (decoded : Option (List Contour)) (key : AnswerKey) : PyResult :=
  match decoded with
  | none => .err decodeErrorMsg
  | some contours =>
    if contours.any (fun c => c.h = 0) then .err criticalErrorMsg
    else
      let question_cnts := contours.filter keepB
      if question_cnts.length < 400 then .err (bubbleFailMsg question_cnts.length)
      else
        match countCorrect key (sortTB question_cnts) with
        | none => .err criticalErrorMsg
        | some correct => .score 100 correct (pct correct)

/-- The `OMRProcessor` object state set by `__init__`
(src/app/omr_processor.py lines 7-9).  `process_omr_sheet` reads and writes
none of it. -/
structure OMRProcessor where
  debug : Bool
  processed_image_for_debug : Option (List Contour)

/-- The bound method: same computation, object state untouched. -/
def OMRProcessor.run (self : OMRProcessor) (decoded : Option (List Contour))
    (key : AnswerKey) : PyResult × OMRProcessor :=
  (process_omr_sheet decoded key, self)

/-- Fill measure of the `i`-th element of a four-contour option slice. -/
def fill4 (a b c d : Contour) : Nat → Nat
  | 0 => a.fill
  | 1 => b.fill
  | 2 => c.fill
  | _ => d.fill

/-- A synthetic sheet: `rows` physical rows of 20 bubble-sized contours
(all passing the candidate filter), already in top-to-bottom, left-to-right
position order, with prescribed fill measures. -/
def mkGrid (rows : Nat) (fills : Nat → Nat → Nat) : List Contour :=
  (List.range rows).flatMap (fun r =>
    (List.range 20).map (fun c =>
      { x := 30 * c, y := 30 * r, w := 20, h := 20, area := 60, fill := fills r c }))

/-- Sheet on which every bubble of every question has the same, saturated
fill measure: every question is margin-tied far above any fill threshold. -/
def gridAllTied : List Contour := mkGrid 20 (fun _ _ => 100)

/-- Sheet on which only the first bubble of question 1 is filled. -/
def gridOnlyQ1 : List Contour := mkGrid 20 (fun r c => if r = 0 ∧ c = 0 then 100 else 0)

/-- Sheet with no ink in any bubble: every question is blank. -/
def gridBlank : List Contour := mkGrid 20 (fun _ _ => 0)

/-- Sheet with ink only in some filler positions; used with an integer-keyed
answer key. -/
def gridInts : List Contour := mkGrid 20 (fun _ _ => 3)

/-- Sheet with 21 physical rows (420 candidates): one row more than the
configured layout can accept, so the candidate set cannot be partitioned
into the exact expected 100 × 4 grid. -/
def gridSurplus : List Contour := mkGrid 21 (fun _ _ => 5)

/-- Sheet on which the first bubble of every question is filled. -/
def gridFirstOption : List Contour := mkGrid 20 (fun _ c => if c % 4 = 0 then 9 else 0)

/-- Answer key containing only question 1, answered with option 0. -/
def keyQ1 : AnswerKey := [(PyKey.pstr "1", 0)]

/-- Answer key containing only question 1 under an integer key. -/
def keyIntQ1 : AnswerKey := [(PyKey.pint 1, 0)]

/-- String-keyed answer key for questions 1 through 7, all option 0. -/
def keySeven : AnswerKey :=
  [(PyKey.pstr "1", 0), (PyKey.pstr "2", 0), (PyKey.pstr "3", 0), (PyKey.pstr "4", 0),
   (PyKey.pstr "5", 0), (PyKey.pstr "6", 0), (PyKey.pstr "7", 0)]

/-- Answer key for question 1 plus an unrelated integer-keyed entry that no
string lookup can hit. -/
def keyQ1X : AnswerKey := [(PyKey.pstr "1", 0), (PyKey.pint 5, 3)]

/-- Sheet on which the second bubble of every question is filled. -/
def gridSecondOption : List Contour := mkGrid 20 (fun _ c => if c % 4 = 1 then 8 else 0)

/-- Sheet with a uniform light fill, used for grid-numbering instances. -/
def gridUniform : List Contour := mkGrid 20 (fun _ _ => 1)

/-- Two tied saturated bubbles followed by two light ones. -/
def cTieA : Contour := ⟨0, 0, 20, 20, 60, 9⟩

/-- Second bubble of the tied pair. -/
def cTieB : Contour := ⟨30, 0, 20, 20, 60, 9⟩

/-- Third, lightly inked bubble. -/
def cLowC : Contour := ⟨60, 0, 20, 20, 60, 2⟩

/-- Fourth, lightly inked bubble. -/
def cLowD : Contour := ⟨90, 0, 20, 20, 60, 2⟩

/-- Blank bubbles of one question. -/
def cZeroA : Contour := ⟨0, 0, 20, 20, 60, 0⟩

/-- Second blank bubble. -/
def cZeroB : Contour := ⟨30, 0, 20, 20, 60, 0⟩

/-- Third blank bubble. -/
def cZeroC : Contour := ⟨60, 0, 20, 20, 60, 0⟩

/-- Fourth blank bubble. -/
def cZeroD : Contour := ⟨90, 0, 20, 20, 60, 0⟩

/-- A bubble-shaped contour for filter instances. -/
def cSquare : Contour := ⟨0, 0, 20, 20, 60, 0⟩

end OMR

namespace OMR

/-- Inserting with `insertByKey` permutes: the result is the element consed on. -/
theorem insertByKey_perm (key : Contour → Nat) (a : Contour) (l : List Contour) :
    (insertByKey key a l).Perm (a :: l) := by
  induction l with
  | nil => exact List.Perm.refl _
  | cons b l ih =>
    simp only [insertByKey]
    split
    · exact (ih.cons b).trans (List.Perm.swap a b l)
    · exact List.Perm.refl _

/-- The stable insertion sort is a permutation of its input. -/
theorem sortByKey_perm (key : Contour → Nat) (l : List Contour) :
    (sortByKey key l).Perm l := by
  induction l with
  | nil => exact List.Perm.refl _
  | cons a l ih => exact (insertByKey_perm key a (sortByKey key l)).trans (ih.cons a)

/-- Sorting preserves membership. -/
theorem mem_sortByKey (key : Contour → Nat) (l : List Contour) (c : Contour) :
    c ∈ sortByKey key l ↔ c ∈ l :=
  (sortByKey_perm key l).mem_iff

/-- Sorting preserves length. -/
theorem length_sortByKey (key : Contour → Nat) (l : List Contour) :
    (sortByKey key l).length = l.length :=
  (sortByKey_perm key l).length_eq

/-- Once the argmax accumulator holds a value it keeps holding one. -/
theorem bubbledAux_some (cs : List Contour) :
    ∀ (j : Nat) (p : Nat × Nat), ∃ q, bubbledAux cs j (some p) = some q := by
  induction cs with
  | nil => exact fun j p => ⟨p, rfl⟩
  | cons c rest ih =>
    intro j p
    simp only [bubbledAux]
    split
    · exact ih (j + 1) _
    · exact ih (j + 1) _

/-- The argmax of a nonempty option slice exists. -/
theorem bubbled_cons_some (c : Contour) (cs : List Contour) :
    ∃ p, bubbled (c :: cs) = some p := by
  simpa only [bubbled, bubbledAux] using bubbledAux_some cs 1 (c.fill, 0)

/-- A question's contribution, when defined, is zero or one. -/
theorem contribution_le_one (key : AnswerKey) (q : Nat) (cnts : List Contour) (r : Nat)
    (h : contribution key q cnts = some r) : r ≤ 1 := by
  unfold contribution at h
  rcases hb : bubbled cnts with _ | ⟨t, j⟩ <;> rw [hb] at h
  · exact absurd h (by simp)
  · rcases hk : keyGet key q with _ | v <;> rw [hk] at h
    · simp at h
      omega
    · simp only [Option.some.injEq] at h
      split at h <;> omega

/-- A nonempty option slice always yields a defined contribution. -/
theorem contribution_isSome (key : AnswerKey) (q : Nat) (cnts : List Contour)
    (h : cnts ≠ []) : ∃ r, contribution key q cnts = some r := by
  rcases cnts with _ | ⟨c, cs⟩
  · exact absurd rfl h
  · obtain ⟨⟨t, j⟩, hp⟩ := bubbled_cons_some c cs
    unfold contribution
    rw [hp]
    exact ⟨_, rfl⟩

/-- A question whose number misses the answer key contributes zero. -/
theorem contribution_of_keyGet_none (key : AnswerKey) (q : Nat) (cnts : List Contour)
    (r : Nat) (hk : keyGet key q = none) (h : contribution key q cnts = some r) : r = 0 := by
  unfold contribution at h
  rcases hb : bubbled cnts with _ | ⟨t, j⟩ <;> rw [hb] at h
  · exact absurd h (by simp)
  · simp [hk] at h
    omega

end OMR

namespace OMR

/-- A fold of per-question contributions over nonempty option slices is
defined and bounded by the number of cells. -/
theorem foldScore_bound (key : AnswerKey) :
    ∀ (L : List (Nat × List Contour)) (acc : Nat),
      (∀ qc ∈ L, qc.2 ≠ []) →
      ∃ c, (L.foldlM (fun acc qc => do
          let r ← contribution key qc.1 qc.2
          pure (acc + r)) acc) = some c ∧ c ≤ acc + L.length := by
  intro L
  induction L with
  | nil => exact fun acc _ => ⟨acc, by simp, by simp⟩
  | cons qc L ih =>
    intro acc hne
    obtain ⟨r, hr⟩ := contribution_isSome key qc.1 qc.2 (hne qc (by simp))
    have hr1 := contribution_le_one key qc.1 qc.2 r hr
    obtain ⟨c, hc, hcle⟩ := ih (acc + r) (fun x hx => hne x (by simp [hx]))
    refine ⟨c, ?_, ?_⟩
    · simpa [List.foldlM_cons, hr] using hc
    · simp only [List.length_cons]
      omega

/-- If every defined contribution is zero, the fold returns its accumulator. -/
theorem foldScore_zero (key : AnswerKey) :
    ∀ (L : List (Nat × List Contour)) (acc c : Nat),
      (∀ qc ∈ L, ∀ r, contribution key qc.1 qc.2 = some r → r = 0) →
      (L.foldlM (fun acc qc => do
          let r ← contribution key qc.1 qc.2
          pure (acc + r)) acc) = some c → c = acc := by
  intro L
  induction L with
  | nil =>
    intro acc c _ h
    simp at h
    omega
  | cons qc L ih =>
    intro acc c hz h
    rcases hqc : contribution key qc.1 qc.2 with _ | r
    · simp [List.foldlM_cons, hqc] at h
    · have hr0 := hz qc (by simp) r hqc
      subst hr0
      simp only [List.foldlM_cons, hqc] at h
      exact ih acc c (fun x hx => hz x (by simp [hx])) (by simpa using h)

/-- Two answer keys with identical per-question contributions fold alike. -/
theorem foldScore_congr (key key' : AnswerKey) :
    ∀ (L : List (Nat × List Contour)) (acc : Nat),
      (∀ qc ∈ L, contribution key qc.1 qc.2 = contribution key' qc.1 qc.2) →
      (L.foldlM (fun acc qc => do
          let r ← contribution key qc.1 qc.2
          pure (acc + r)) acc) =
      (L.foldlM (fun acc qc => do
          let r ← contribution key' qc.1 qc.2
          pure (acc + r)) acc) := by
  intro L
  induction L with
  | nil => intro acc _; rfl
  | cons qc L ih =>
    intro acc hagree
    have h0 := hagree qc (by simp)
    simp only [List.foldlM_cons, h0]
    rcases hqc : contribution key' qc.1 qc.2 with _ | r
    · simp [hqc]
    · simp only [hqc, Option.some_bind, pure]
      simpa using ih (acc + r) (fun x hx => hagree x (by simp [hx]))

/-- With at least 400 candidates the row loop runs exactly 20 rows. -/
theorem numRows_eq_twenty (len : Nat) (h : 400 ≤ len) : numRows len = 20 := by
  unfold numRows
  omega

/-- The row loop never runs more than 20 rows. -/
theorem numRows_le (len : Nat) : numRows len ≤ 20 := min_le_left _ _

/-- The question numbers of the resolved grid, read off the loop indices. -/
theorem cells_map_fst (s : List Contour) :
    (cells s).map Prod.fst =
      (List.range (numRows s.length)).flatMap
        (fun r => (List.range 5).map (fun col => col * 20 + r + 1)) := by
  simp [cells, List.map_flatMap, List.map_map, Function.comp_def]

/-- With at least 400 candidates the grid has exactly 100 cells. -/
theorem length_cells (s : List Contour) (h : 400 ≤ s.length) : (cells s).length = 100 := by
  calc (cells s).length = ((cells s).map Prod.fst).length := by simp
    _ = 100 := by
        rw [cells_map_fst, numRows_eq_twenty _ h]
        decide

/-- Every resolved cell's question number lies in `[1, 100]`. -/
theorem cells_qnum_range (s : List Contour) (qc : Nat × List Contour)
    (hqc : qc ∈ cells s) : 1 ≤ qc.1 ∧ qc.1 ≤ 100 := by
  have hle := numRows_le s.length
  simp only [cells, List.mem_flatMap, List.mem_map, List.mem_range] at hqc
  obtain ⟨r, hr, col, hcol, heq⟩ := hqc
  subst heq
  simp only []
  omega

/-- With at least 400 candidates every cell's option slice has 4 contours. -/
theorem cells_cnts_length (s : List Contour) (h : 400 ≤ s.length)
    (qc : Nat × List Contour) (hqc : qc ∈ cells s) : qc.2.length = 4 := by
  simp only [cells, List.mem_flatMap, List.mem_map, List.mem_range] at hqc
  obtain ⟨r, hr, col, hcol, heq⟩ := hqc
  have hr20 : r < 20 := lt_of_lt_of_le hr (numRows_le _)
  subst heq
  simp only [sortLR, List.length_take, List.length_drop, length_sortByKey]
  omega

/-- An answer key whose keys are all Python ints is never hit by the
string-keyed lookup. -/
theorem keyGet_of_int_keys (key : AnswerKey)
    (hint : ∀ kv ∈ key, isIntKey kv.1 = true) (q : Nat) : keyGet key q = none := by
  induction key with
  | nil => rfl
  | cons kv rest ih =>
    have h1 := hint kv (by simp)
    rcases kv with ⟨k, v⟩
    rcases k with n | st
    · have hne : (PyKey.pstr (toString q) == PyKey.pint n) = false := by
        simp [beq_eq_false_iff_ne]
      simp only [keyGet, List.lookup_cons, hne] at *
      exact ih (fun x hx => hint x (by simp [hx]))
    · exact absurd h1 (by simp [isIntKey])

end OMR

namespace OMR

/-- With at least 400 sorted candidates the scoring loop completes and
yields at most 100 correct answers. -/
theorem countCorrect_some_le (key : AnswerKey) (s : List Contour)
    (h : 400 ≤ s.length) : ∃ c, countCorrect key s = some c ∧ c ≤ 100 := by
  obtain ⟨c, hc, hle⟩ := foldScore_bound key (cells s) 0 (fun qc hqc => by
    have h4 := cells_cnts_length s h qc hqc
    intro hnil
    rw [hnil] at h4
    simp at h4)
  refine ⟨c, hc, ?_⟩
  rw [length_cells s h] at hle
  omega

/-- If no question number in `[1, 100]` hits the answer key, the completed
scoring loop counts zero. -/
theorem countCorrect_zero_of_miss (key : AnswerKey) (s : List Contour) (c : Nat)
    (hk : ∀ q, 1 ≤ q → q ≤ 100 → keyGet key q = none)
    (h : countCorrect key s = some c) : c = 0 := by
  refine foldScore_zero key (cells s) 0 c (fun qc hqc r hr => ?_) h
  obtain ⟨h1, h100⟩ := cells_qnum_range s qc hqc
  exact contribution_of_keyGet_none key qc.1 qc.2 r (hk qc.1 h1 h100) hr

/-- Answer keys that agree on the lookups of questions 1 through 100 --
the only lookups the loop performs -- produce identical counts. -/
theorem countCorrect_congr (key key' : AnswerKey) (s : List Contour)
    (hagree : ∀ q, 1 ≤ q → q ≤ 100 → keyGet key q = keyGet key' q) :
    countCorrect key s = countCorrect key' s := by
  refine foldScore_congr key key' (cells s) 0 (fun qc hqc => ?_)
  obtain ⟨h1, h100⟩ := cells_qnum_range s qc hqc
  unfold contribution
  rw [hagree qc.1 h1 h100]

/-- A row slice of the first 400 sorted candidates equals the row slice of
the full list, for each of the 20 processed rows. -/
theorem row_slice_take (s : List Contour) (r : Nat) (hr : r < 20) :
    ((s.take 400).drop (20 * r)).take 20 = (s.drop (20 * r)).take 20 := by
  rw [List.drop_take, List.take_take]
  congr 1
  omega

/-- The resolved grid depends only on the first 400 sorted candidates. -/
theorem cells_take (s : List Contour) (h : 400 ≤ s.length) :
    cells (s.take 400) = cells s := by
  have hlen : (s.take 400).length = 400 := by
    rw [List.length_take]
    omega
  unfold cells
  rw [hlen, numRows_eq_twenty 400 (by omega), numRows_eq_twenty s.length h]
  rw [List.flatMap_def, List.flatMap_def]
  congr 1
  refine List.map_congr_left (fun r hr => ?_)
  rw [row_slice_take s r (List.mem_range.mp hr)]

/-- The correct count depends only on the first 400 sorted candidates:
surplus candidates beyond them never create questions or increments. -/
theorem countCorrect_take (key : AnswerKey) (s : List Contour)
    (h : 400 ≤ s.length) : countCorrect key (s.take 400) = countCorrect key s := by
  unfold countCorrect
  rw [cells_take s h]

set_option maxRecDepth 40000 in
/-- The stored percentage lies between 0 and 100 for each possible correct
count, checked by evaluating the binary64 model on all 101 values. -/
theorem pct_bounds_all :
    ((List.range 101).all fun c => decide (0 ≤ pct c) && decide (pct c ≤ 100)) = true := by
  decide

/-- Bounds on the stored percentage. -/
theorem pct_nonneg_le (c : Nat) (h : c ≤ 100) : 0 ≤ pct c ∧ pct c ≤ 100 := by
  have hall := List.all_eq_true.mp pct_bounds_all c (List.mem_range.mpr (by omega))
  simpa using hall

end OMR

namespace OMR

/-- The insufficient-candidate error string never coincides with the decode
error string (their lengths differ for every embedded count). -/
theorem bubbleFailMsg_ne_decode (n : Nat) : bubbleFailMsg n ≠ decodeErrorMsg := by
  intro h
  have hl := congrArg String.length h
  rw [bubbleFailMsg, decodeErrorMsg, String.length_append, String.length_append] at hl
  have h1 : ("Bubble detection failed (found " : String).length = 31 := rfl
  have h2 : ("). The sample images are not compatible with this CV approach." : String).length = 62 := rfl
  have h3 : ("Failed to decode image." : String).length = 23 := rfl
  omega

/-- The insufficient-candidate error string never coincides with the generic
exception string. -/
theorem bubbleFailMsg_ne_critical (n : Nat) : bubbleFailMsg n ≠ criticalErrorMsg := by
  intro h
  have hl := congrArg String.length h
  rw [bubbleFailMsg, criticalErrorMsg, String.length_append, String.length_append] at hl
  have h1 : ("Bubble detection failed (found " : String).length = 31 := rfl
  have h2 : ("). The sample images are not compatible with this CV approach." : String).length = 62 := rfl
  have h3 : ("A critical error occurred during image processing." : String).length = 50 := rfl
  omega

/-- The argmax loop over a four-contour option slice selects the first index
attaining the maximal fill: the selected fill dominates every option, and
every earlier option is strictly below it. -/
theorem bubbled_four (a b c d : Contour) :
    ∃ j, j < 4 ∧ bubbled [a, b, c, d] = some (fill4 a b c d j, j) ∧
      (∀ i, i < 4 → fill4 a b c d i ≤ fill4 a b c d j) ∧
      (∀ i, i < j → fill4 a b c d i < fill4 a b c d j) := by
  by_cases h1 : a.fill < b.fill
  · by_cases h2 : b.fill < c.fill
    · by_cases h3 : c.fill < d.fill
      · exact ⟨3, by omega, by simp [bubbled, bubbledAux, fill4, h1, h2, h3],
          fun i hi => by interval_cases i <;> simp [fill4] <;> omega,
          fun i hi => by interval_cases i <;> simp [fill4] <;> omega⟩
      · exact ⟨2, by omega, by simp [bubbled, bubbledAux, fill4, h1, h2, h3],
          fun i hi => by interval_cases i <;> simp [fill4] <;> omega,
          fun i hi => by interval_cases i <;> simp [fill4] <;> omega⟩
    · by_cases h3 : b.fill < d.fill
      · exact ⟨3, by omega, by simp [bubbled, bubbledAux, fill4, h1, h2, h3],
          fun i hi => by interval_cases i <;> simp [fill4] <;> omega,
          fun i hi => by interval_cases i <;> simp [fill4] <;> omega⟩
      · exact ⟨1, by omega, by simp [bubbled, bubbledAux, fill4, h1, h2, h3],
          fun i hi => by interval_cases i <;> simp [fill4] <;> omega,
          fun i hi => by interval_cases i <;> simp [fill4] <;> omega⟩
  · by_cases h2 : a.fill < c.fill
    · by_cases h3 : c.fill < d.fill
      · exact ⟨3, by omega, by simp [bubbled, bubbledAux, fill4, h1, h2, h3],
          fun i hi => by interval_cases i <;> simp [fill4] <;> omega,
          fun i hi => by interval_cases i <;> simp [fill4] <;> omega⟩
      · exact ⟨2, by omega, by simp [bubbled, bubbledAux, fill4, h1, h2, h3],
          fun i hi => by interval_cases i <;> simp [fill4] <;> omega,
          fun i hi => by interval_cases i <;> simp [fill4] <;> omega⟩
    · by_cases h3 : a.fill < d.fill
      · exact ⟨3, by omega, by simp [bubbled, bubbledAux, fill4, h1, h2, h3],
          fun i hi => by interval_cases i <;> simp [fill4] <;> omega,
          fun i hi => by interval_cases i <;> simp [fill4] <;> omega⟩
      · exact ⟨0, by omega, by simp [bubbled, bubbledAux, fill4, h1, h2, h3],
          fun i hi => by interval_cases i <;> simp [fill4] <;> omega,
          fun i hi => by omega⟩

/-- Inversion of a successful run: the total is the hardcoded 100, the
percentage is the binary64 value of `correct / 100 * 100`, and the correct
count came from a completed scoring loop over at least 400 candidates. -/
theorem process_score_inv (decoded : Option (List Contour)) (key : AnswerKey)
    (t c : Nat) (p : ℚ) (h : process_omr_sheet decoded key = .score t c p) :
    t = 100 ∧ p = pct c ∧ ∃ cs, decoded = some cs ∧
      400 ≤ (cs.filter keepB).length ∧
      countCorrect key (sortTB (cs.filter keepB)) = some c := by
  rcases decoded with _ | cs
  · exact absurd h (by simp [process_omr_sheet])
  · simp only [process_omr_sheet] at h
    split at h
    · exact absurd h (by simp)
    · split at h
      · exact absurd h (by simp)
      · rename_i hlen
        split at h
        · exact absurd h (by simp)
        · rename_i c' hcc
          injection h with h1 h2 h3
          subst h2
          exact ⟨h1.symm, h3.symm, cs, rfl, by omega, hcc⟩

/-- Exhaustive case analysis of `process_omr_sheet`: decode failure,
swallowed internal exception, insufficient candidates, or a success result
with the fixed total of 100 -- no other outcome exists. -/
theorem process_cases (decoded : Option (List Contour)) (key : AnswerKey) :
    (decoded = none ∧ process_omr_sheet decoded key = .err decodeErrorMsg) ∨
    (∃ cs, decoded = some cs ∧ cs.any (fun c => c.h = 0) = true ∧
      process_omr_sheet decoded key = .err criticalErrorMsg) ∨
    (∃ cs, decoded = some cs ∧ (cs.filter keepB).length < 400 ∧
      process_omr_sheet decoded key = .err (bubbleFailMsg (cs.filter keepB).length)) ∨
    (∃ c p, c ≤ 100 ∧ p = pct c ∧ process_omr_sheet decoded key = .score 100 c p) := by
  rcases decoded with _ | cs
  · exact Or.inl ⟨rfl, rfl⟩
  · rcases hany : cs.any (fun c => c.h = 0) with _ | _
    · by_cases hlen : (cs.filter keepB).length < 400
      · refine Or.inr (Or.inr (Or.inl ⟨cs, rfl, hlen, ?_⟩))
        simp [process_omr_sheet, hany, hlen]
      · have h400 : 400 ≤ (sortTB (cs.filter keepB)).length := by
          rw [sortTB, length_sortByKey]
          omega
        obtain ⟨c, hc, hcle⟩ := countCorrect_some_le key _ h400
        refine Or.inr (Or.inr (Or.inr ⟨c, pct c, hcle, rfl, ?_⟩))
        simp [process_omr_sheet, hany, hlen, hc]
    · exact Or.inr (Or.inl ⟨cs, rfl, hany, by simp [process_omr_sheet, hany]⟩)

end OMR

namespace OMR

/-- C7: `process_omr_sheet` is deterministic.  Two runs of the method on
identical decoded bytes, identical answer key and identical parameters
return identical results, from any pair of object states, and the object
state is never modified: the translation is a pure function of its
arguments.  The source reads no mutable state inside the method, uses no
randomness and performs no retries. -/
theorem process_omr_sheet_deterministic (p q : OMRProcessor)
    (decoded : Option (List Contour)) (key : AnswerKey) :
    (p.run decoded key).1 = (q.run decoded key).1 ∧ (p.run decoded key).2 = p :=
  ⟨rfl, rfl⟩

/-- C2: whenever fewer than 400 filtered candidates survive -- the
layout-derived expectation 100 questions × 4 options for the hardcoded
layout -- the run returns the insufficient-candidate failure embedding the
surviving count, and never a score result.  The hypothesis `0 < c.h` records
the `cv2.boundingRect` invariant that bounding boxes are nonempty. -/
theorem insufficient_candidates_error (contours : List Contour) (key : AnswerKey)
    (hh : ∀ c ∈ contours, 0 < c.h)
    (hlt : (contours.filter keepB).length < 400) :
    process_omr_sheet (some contours) key =
      .err (bubbleFailMsg (contours.filter keepB).length) ∧
    ∀ t c p, process_omr_sheet (some contours) key ≠ .score t c p := by
  have hany : contours.any (fun c => c.h = 0) = false := by
    simp only [List.any_eq_false, decide_eq_true_eq]
    exact fun c hc => Nat.pos_iff_ne_zero.mp (hh c hc)
  have h1 : process_omr_sheet (some contours) key =
      .err (bubbleFailMsg (contours.filter keepB).length) := by
    simp [process_omr_sheet, hany, hlt]
  exact ⟨h1, fun t c p hcon => by rw [h1] at hcon; exact PyResult.noConfusion hcon⟩

/-- Witness for C2: the empty candidate set fails with the
insufficient-candidate error for count 0. -/
theorem insufficient_candidates_error_inst :
    process_omr_sheet (some []) [] = .err (bubbleFailMsg 0) :=
  (insufficient_candidates_error [] [] (fun c hc => absurd hc (List.not_mem_nil c))
    (by decide)).1

end OMR

namespace OMR

/-- C8: a contour is kept as a bubble candidate iff all three filters hold:
bounding-box width and height at least 10 pixels, aspect ratio `w / h`
within the band of radius 0.5 around 1.0 (that is, in `[0.5, 1.5]`), and
filled contour area strictly above 50; the filtered list retains exactly
the passing contours of the input, and every contour reaching a resolved
grid cell passed the filter -- discarded contours never re-enter. -/
theorem contour_filter_characterization (c : Contour) (hc : 0 < c.h) :
    (keepB c = true ↔
      (10 ≤ c.w ∧ 10 ≤ c.h ∧ |(c.w : ℚ) / (c.h : ℚ) - 1| ≤ 1 / 2 ∧ (50 : ℚ) < c.area)) ∧
    (∀ cs : List Contour, c ∈ cs.filter keepB ↔ c ∈ cs ∧ keepB c = true) ∧
    (∀ cs : List Contour, ∀ qc ∈ cells (sortTB (cs.filter keepB)), ∀ d ∈ qc.2,
      keepB d = true ∧ d ∈ cs) := by
  refine ⟨?_, fun cs => List.mem_filter, ?_⟩
  · have hmk : mkRat (c.w : ℤ) c.h = (c.w : ℚ) / (c.h : ℚ) := by
      rw [Rat.mkRat_eq_div]
      push_cast
      ring
    have h12 : mkRat 1 2 = (1 : ℚ) / 2 := by norm_num [Rat.mkRat_eq_div]
    have h32 : mkRat 3 2 = (3 : ℚ) / 2 := by norm_num [Rat.mkRat_eq_div]
    simp only [keepB, Bool.and_eq_true, decide_eq_true_eq, hmk, h12, h32]
    constructor
    · rintro ⟨⟨⟨⟨hw, hh⟩, hlo⟩, hhi⟩, harea⟩
      refine ⟨hw, hh, ?_, harea⟩
      rw [abs_sub_le_iff]
      constructor <;> linarith
    · rintro ⟨hw, hh, hband, harea⟩
      rw [abs_sub_le_iff] at hband
      obtain ⟨hb1, hb2⟩ := hband
      refine ⟨⟨⟨⟨hw, hh⟩, by linarith⟩, by linarith⟩, harea⟩
  · intro cs qc hqc d hd
    simp only [cells, List.mem_flatMap, List.mem_map, List.mem_range] at hqc
    obtain ⟨r, hr, col, hcol, heq⟩ := hqc
    subst heq
    have hd1 : d ∈ sortLR (((sortTB (cs.filter keepB)).drop (20 * r)).take 20) :=
      List.drop_subset _ _ (List.take_subset _ _ hd)
    have hd2 : d ∈ ((sortTB (cs.filter keepB)).drop (20 * r)).take 20 := by
      rw [sortLR, mem_sortByKey] at hd1
      exact hd1
    have hd3 : d ∈ sortTB (cs.filter keepB) :=
      List.drop_subset _ _ (List.take_subset _ _ hd2)
    have hd4 : d ∈ cs.filter keepB := by
      rw [sortTB, mem_sortByKey] at hd3
      exact hd3
    have hd5 := List.mem_filter.mp hd4
    exact ⟨hd5.2, hd5.1⟩

/-- Witness for C8 at a concrete square bubble contour. -/
theorem contour_filter_characterization_inst :
    keepB cSquare = true ↔
      (10 ≤ cSquare.w ∧ 10 ≤ cSquare.h ∧
        |(cSquare.w : ℚ) / (cSquare.h : ℚ) - 1| ≤ 1 / 2 ∧ (50 : ℚ) < cSquare.area) :=
  (contour_filter_characterization cSquare (by decide)).1

set_option maxRecDepth 100000 in
/-- C4: on any candidate list of exactly 400 = 100 × 4 shapes, the resolved
grid's question numbers form exactly the set `[1, 100]` with no duplicates,
and column block `b` of row `r` receives question `b * 20 + r + 1`: block `b`
covers questions `b * rows_per_block + 1` through `(b + 1) * rows_per_block`
with `rows_per_block = 20`. -/
theorem grid_question_numbers_exact (s : List Contour) (hlen : s.length = 400) :
    ((cells s).map Prod.fst).toFinset = Finset.Icc 1 100 ∧
    ((cells s).map Prod.fst).Nodup ∧
    ∀ b < 5, ∀ r < 20, ((cells s).map Prod.fst).getD (r * 5 + b) 0 = b * 20 + r + 1 := by
  have h := cells_map_fst s
  rw [hlen, numRows_eq_twenty 400 (by omega)] at h
  rw [h]
  decide

set_option maxRecDepth 100000 in
/-- Witness for C4 at a concrete 400-candidate sheet. -/
theorem grid_question_numbers_exact_inst :
    ((cells gridUniform).map Prod.fst).toFinset = Finset.Icc 1 100 :=
  (grid_question_numbers_exact gridUniform (by decide)).1

end OMR

namespace OMR

set_option maxRecDepth 100000 in
/-- C1 counterexample: on a sheet where all four bubbles of every question
carry the identical saturated fill 100 -- at least two candidates above any
fill threshold with zero margin between the top two -- and the answer key
maps question 1 to option 0, the run returns `correct = 1`: the margin-tied
question is scored as correct and increments the correct count, instead of
the claimed `multiple_marked` with no increment. -/
theorem tied_question_scored_correct :
    process_omr_sheet (some gridAllTied) keyQ1 = .score 100 1 1 := by
  decide

/-- C1 amended: the code resolves every question -- margin-tied ones
included -- by silently selecting the first option index of maximal fill
(the selected fill dominates all four options and strictly exceeds every
earlier one), and it increments the correct count exactly when the answer
key maps the question's decimal string to that index.  No `multiple_marked`
outcome exists. -/
theorem mark_resolution_first_max (a b c d : Contour) (key : AnswerKey) (q : Nat) :
    ∃ j, j < 4 ∧ (∀ i, i < 4 → fill4 a b c d i ≤ fill4 a b c d j) ∧
      (∀ i, i < j → fill4 a b c d i < fill4 a b c d j) ∧
      contribution key q [a, b, c, d] =
        some (if keyGet key q = some (j : ℤ) then 1 else 0) := by
  obtain ⟨j, hj4, hb, hmax, hfirst⟩ := bubbled_four a b c d
  refine ⟨j, hj4, hmax, hfirst, ?_⟩
  unfold contribution
  rw [hb]
  rcases hk : keyGet key q with _ | v
  · simp
  · simp only [Option.some.injEq]
    by_cases hv : (j : ℤ) = v
    · simp [hv]
    · rw [if_neg hv, if_neg (fun hcon => hv hcon.symm)]

/-- Witness for C1's amended theorem on a concrete tied option slice. -/
theorem mark_resolution_first_max_inst :
    ∃ j, j < 4 ∧
      (∀ i, i < 4 → fill4 cTieA cTieB cLowC cLowD i ≤ fill4 cTieA cTieB cLowC cLowD j) ∧
      (∀ i, i < j → fill4 cTieA cTieB cLowC cLowD i < fill4 cTieA cTieB cLowC cLowD j) ∧
      contribution keyQ1 1 [cTieA, cTieB, cLowC, cLowD] =
        some (if keyGet keyQ1 1 = some (j : ℤ) then 1 else 0) :=
  mark_resolution_first_max cTieA cTieB cLowC cLowD keyQ1 1

set_option maxRecDepth 100000 in
/-- C5 counterexample: on a sheet with no ink in any bubble -- no bubble
exceeds any fill threshold -- and the answer key mapping question 1 to
option 0, the run returns `correct = 1`: the blank question is scored as
correct rather than `not_attempted` contributing 0. -/
theorem blank_question_scored_correct :
    process_omr_sheet (some gridBlank) keyQ1 = .score 100 1 1 := by
  decide

/-- C5 amended: a blank question (all four fill measures zero) is resolved
as option 0, the positionally first bubble, rather than `not_attempted`; it
contributes 1 to the correct count exactly when the answer key maps that
question to option 0, and 0 otherwise.  (The fixed total of 100 is settled
with C10's invariants.) -/
theorem blank_question_resolved_as_option_zero (a b c d : Contour) (key : AnswerKey)
    (q : Nat) (ha : a.fill = 0) (hb : b.fill = 0) (hc : c.fill = 0) (hd : d.fill = 0) :
    bubbled [a, b, c, d] = some (0, 0) ∧
    contribution key q [a, b, c, d] = some (if keyGet key q = some 0 then 1 else 0) := by
  have hbb : bubbled [a, b, c, d] = some (0, 0) := by
    simp [bubbled, bubbledAux, ha, hb, hc, hd]
  refine ⟨hbb, ?_⟩
  unfold contribution
  rw [hbb]
  rcases hk : keyGet key q with _ | v
  · simp
  · simp only [Option.some.injEq, Nat.cast_zero]
    by_cases hv : v = 0
    · simp [hv]
    · rw [if_neg (fun hcon => hv hcon.symm), if_neg hv]

/-- Witness for C5's amended theorem on a concrete blank option slice. -/
theorem blank_question_resolved_as_option_zero_inst :
    bubbled [cZeroA, cZeroB, cZeroC, cZeroD] = some (0, 0) ∧
    contribution keyQ1 1 [cZeroA, cZeroB, cZeroC, cZeroD] =
      some (if keyGet keyQ1 1 = some 0 then 1 else 0) :=
  blank_question_resolved_as_option_zero cZeroA cZeroB cZeroC cZeroD keyQ1 1
    rfl rfl rfl rfl

end OMR

namespace OMR

set_option maxRecDepth 100000 in
/-- C3 counterexample: with the one-entry answer key {"1": 0} -- one scored
question -- and a sheet answering question 1 with option 0, the run returns
`correct = 1` but stores percentage 1.0, whereas correct divided by the
number of questions present in the answer key, times 100, is 100.0. -/
theorem sparse_key_percentage_cex :
    process_omr_sheet (some gridOnlyQ1) keyQ1 = .score 100 1 1 ∧
    (1 : ℚ) ≠ ((1 : ℚ) / ((keyQ1.length : ℕ) : ℚ)) * 100 := by
  constructor
  · decide
  · norm_num [keyQ1]

/-- C3 amended: questions absent from the answer key do not affect the
score in either direction -- the run depends only on the key's lookups for
questions 1 through 100, and a missed lookup contributes 0 -- but the
percentage divides by the hardcoded total of 100, not by the number of
scored (keyed) questions. -/
theorem score_denominator_and_unkeyed (decoded : Option (List Contour))
    (key key' : AnswerKey) :
    (∀ t c p, process_omr_sheet decoded key = .score t c p → t = 100 ∧ p = pct c) ∧
    ((∀ q, 1 ≤ q → q ≤ 100 → keyGet key q = keyGet key' q) →
      process_omr_sheet decoded key = process_omr_sheet decoded key') ∧
    (∀ q cnts r, keyGet key q = none → contribution key q cnts = some r → r = 0) := by
  refine ⟨?_, ?_, ?_⟩
  · intro t c p h
    obtain ⟨ht, hp, _⟩ := process_score_inv decoded key t c p h
    exact ⟨ht, hp⟩
  · intro hagree
    rcases decoded with _ | cs
    · rfl
    · simp only [process_omr_sheet]
      rw [countCorrect_congr key key' (sortTB (cs.filter keepB)) hagree]
  · exact fun q cnts r hk h => contribution_of_keyGet_none key q cnts r hk h

/-- Witness for C3's amended theorem: an answer key extended by an
integer-keyed entry that no string lookup can hit scores identically. -/
theorem score_denominator_and_unkeyed_inst :
    process_omr_sheet (some gridOnlyQ1) keyQ1X = process_omr_sheet (some gridOnlyQ1) keyQ1 :=
  (score_denominator_and_unkeyed (some gridOnlyQ1) keyQ1X keyQ1).2.1 (by
    intro q h1 h2
    have h5 : (PyKey.pstr (toString q) == PyKey.pint 5) = false := by
      simp [beq_eq_false_iff_ne]
    by_cases hq : (PyKey.pstr (toString q) == PyKey.pstr "1") = true <;>
      simp [keyGet, keyQ1, keyQ1X, List.lookup_cons, hq, h5])

/-- C9: with an answer key whose keys are all Python ints, every lookup of
`str(question_num)` misses, so any successful run returns zero correct
answers and percentage 0.0 regardless of the marks on the sheet. -/
theorem int_keyed_answer_key_scores_zero (decoded : Option (List Contour))
    (key : AnswerKey) (hint : ∀ kv ∈ key, isIntKey kv.1 = true) :
    ∀ t c p, process_omr_sheet decoded key = .score t c p → c = 0 ∧ p = 0 := by
  intro t c p h
  obtain ⟨ht, hp, cs, hcs, hlen, hcc⟩ := process_score_inv decoded key t c p h
  have hc0 : c = 0 :=
    countCorrect_zero_of_miss key _ c (fun q _ _ => keyGet_of_int_keys key hint q) hcc
  subst hc0
  exact ⟨rfl, by rw [hp]; rfl⟩

set_option maxRecDepth 100000 in
/-- Witness for C9: a marked sheet with the integer-keyed answer key {1: 0}
scores 0 correct with percentage 0.0. -/
theorem int_keyed_answer_key_scores_zero_inst :
    process_omr_sheet (some gridInts) keyIntQ1 = .score 100 0 0 ∧
      ((0 : Nat) = 0 ∧ (0 : ℚ) = 0) := by
  have hrun : process_omr_sheet (some gridInts) keyIntQ1 = .score 100 0 0 := by decide
  exact ⟨hrun,
    int_keyed_answer_key_scores_zero (some gridInts) keyIntQ1 (by decide) 100 0 0 hrun⟩

end OMR

namespace OMR

set_option maxRecDepth 100000 in
/-- C6 counterexample: a decodable sheet with 420 surviving candidates --
a geometry that cannot be partitioned into the exact expected 100 × 4 grid,
i.e. a layout mismatch -- is not reported as any tagged failure: the
surplus row is silently dropped and the run returns a success result. -/
theorem layout_mismatch_not_reported :
    process_omr_sheet (some gridSurplus) [] = .score 100 0 0 := by
  decide

/-- C6 amended: every run returns a per-image result and no failure escapes
as an exception: decode failure, a swallowed internal exception, and the
insufficient-candidate failure carry pairwise distinct human-readable
messages, and every other run yields a success score with total 100.  There
is, however, no layout-mismatch failure category -- surplus candidates are
silently truncated (see the counterexample) -- and the generic exception
message identifies no stage. -/
theorem error_result_taxonomy (decoded : Option (List Contour)) (key : AnswerKey) :
    ((decoded = none ∧ process_omr_sheet decoded key = .err decodeErrorMsg) ∨
     (∃ cs, decoded = some cs ∧ cs.any (fun c => c.h = 0) = true ∧
       process_omr_sheet decoded key = .err criticalErrorMsg) ∨
     (∃ cs, decoded = some cs ∧ (cs.filter keepB).length < 400 ∧
       process_omr_sheet decoded key = .err (bubbleFailMsg (cs.filter keepB).length)) ∨
     (∃ c p, c ≤ 100 ∧ p = pct c ∧ process_omr_sheet decoded key = .score 100 c p)) ∧
    decodeErrorMsg ≠ criticalErrorMsg ∧
    (∀ n, bubbleFailMsg n ≠ decodeErrorMsg ∧ bubbleFailMsg n ≠ criticalErrorMsg) :=
  ⟨process_cases decoded key, by decide,
    fun n => ⟨bubbleFailMsg_ne_decode n, bubbleFailMsg_ne_critical n⟩⟩

/-- Witness for C6's amended theorem at the undecodable input. -/
theorem error_result_taxonomy_inst :
    (((none : Option (List Contour)) = none ∧
        process_omr_sheet none [] = .err decodeErrorMsg) ∨
      (∃ cs, (none : Option (List Contour)) = some cs ∧
        cs.any (fun c => c.h = 0) = true ∧
        process_omr_sheet none [] = .err criticalErrorMsg) ∨
      (∃ cs, (none : Option (List Contour)) = some cs ∧
        (cs.filter keepB).length < 400 ∧
        process_omr_sheet none [] = .err (bubbleFailMsg (cs.filter keepB).length)) ∨
      (∃ c p, c ≤ 100 ∧ p = pct c ∧ process_omr_sheet none [] = .score 100 c p)) ∧
    decodeErrorMsg ≠ criticalErrorMsg ∧
    (∀ n, bubbleFailMsg n ≠ decodeErrorMsg ∧ bubbleFailMsg n ≠ criticalErrorMsg) :=
  error_result_taxonomy none []

set_option maxRecDepth 100000 in
/-- C10 counterexample: a run with 7 correct answers stores the binary64
value of `(7 / 100) * 100`, which is `7881299347898369 / 2 ^ 50` =
7.000000000000001, not the correct count 7: the stored percentage does not
equal the correct count as a float. -/
theorem percentage_rounding_cex :
    process_omr_sheet (some gridFirstOption) keySeven = .score 100 7 (pct 7) ∧
      pct 7 ≠ 7 ∧ pct 7 = mkRat 7881299347898369 (2 ^ 50) := by
  refine ⟨by decide, by decide, by decide⟩

/-- C10 amended: every successful result has total 100, a correct count of
at most 100, and a stored percentage equal to the binary64 value of
`correct / 100 * 100`, which lies in `[0, 100]` but can differ from the
correct count (see the counterexample); and the loop consumes at most 20
physical rows, so the count depends only on the first 400 candidates in
vertical order -- surplus candidates never create questions or increments. -/
theorem success_result_invariants (decoded : Option (List Contour)) (key : AnswerKey) :
    (∀ t c p, process_omr_sheet decoded key = .score t c p →
      t = 100 ∧ c ≤ 100 ∧ p = pct c ∧ 0 ≤ p ∧ p ≤ 100) ∧
    (∀ s : List Contour, 400 ≤ s.length →
      numRows s.length = 20 ∧ countCorrect key (s.take 400) = countCorrect key s) := by
  constructor
  · intro t c p h
    obtain ⟨ht, hp, cs, hcs, hlen, hcc⟩ := process_score_inv decoded key t c p h
    have h400 : 400 ≤ (sortTB (cs.filter keepB)).length := by
      rw [sortTB, length_sortByKey]
      omega
    obtain ⟨c', hc', hcle⟩ := countCorrect_some_le key _ h400
    have hceq : c = c' := by
      rw [hcc] at hc'
      exact Option.some.inj hc' 
    have hb := pct_nonneg_le c (by omega)
    exact ⟨ht, by omega, hp, by rw [hp]; exact hb.1, by rw [hp]; exact hb.2⟩
  · intro s hs
    exact ⟨numRows_eq_twenty s.length hs, countCorrect_take key s hs⟩

set_option maxRecDepth 100000 in
/-- Witness for C10's amended theorem on a concrete successful run. -/
theorem success_result_invariants_inst :
    (100 : Nat) = 100 ∧ (0 : Nat) ≤ 100 ∧ (0 : ℚ) = pct 0 ∧ (0 : ℚ) ≤ 0 ∧ (0 : ℚ) ≤ 100 :=
  (success_result_invariants (some gridSecondOption) keyQ1).1 100 0 0 (by decide)

end OMR
